import Mathlib

set_option maxRecDepth 100000

/-!
Shallow embedding of src/app.py (Gemini Conversational Query Generator).

The core routine get_gemini_variations and the driver loop at the bottom
of app.py are modelled as pure Lean functions.  The external Gemini call
(genai.configure / model.generate_content, the whole body of the try block
up to the response) is represented by an oracle
svc : String → String → Except String String taking the credential and the
prompt and returning either the generated text or an exception message.
Python string operations (strip, split on newline, split on the dot-space
separator with maxsplit one, substring membership) are embedded with
Python semantics over List Char.  Side effects (the single network
request, the st.error notification) are instrumented in an Effects record
returned alongside the result list.
-/

/-- Python `str.isspace` characters relevant to `str.strip()`:
space, tab, newline, carriage return, vertical tab, form feed. -/
def isPyWs (c : Char) : Bool :=
  c = ' ' || c = '\t' || c = '\n' || c = '\r' || c = '\x0b' || c = '\x0c'

/-- Python `str.strip()` on a character list: drop whitespace from both ends. -/
def pyStripL (l : List Char) : List Char :=
  ((l.dropWhile isPyWs).reverse.dropWhile isPyWs).reverse

/-- Python `str.strip()`. -/
def pyStrip (s : String) : String := String.mk (pyStripL s.data)

/-- Python split on the newline character: splits on every newline, keeping
empty pieces; on the empty string it returns one empty piece, exactly as in
Python. -/
def splitLinesL : List Char → List (List Char)
  | [] => [[]]
  | c :: rest =>
    if c = '\n' then [] :: splitLinesL rest
    else
      match splitLinesL rest with
      | [] => [[c]]
      | l :: ls => (c :: l) :: ls

/-- Python split on the newline character, on strings. -/
def splitLines (s : String) : List String := (splitLinesL s.data).map String.mk

/-- The remainder of the list after the first occurrence of the two-character
dot-space separator, or none when the separator does not occur.  This is
the scan performed by the Python split on dot-space with maxsplit one. -/
def afterFirstSep : List Char → Option (List Char)
  | [] => none
  | c :: rest =>
    if c = '.' ∧ rest.head? = some ' ' then some rest.tail
    else afterFirstSep rest

/-- The per-line cleaning of app.py line 45 (split on dot-space with
maxsplit one, take the last piece): everything after the first occurrence
of the dot-space separator, or the whole line when it never occurs. -/
def cleanLine (line : String) : String :=
  match afterFirstSep line.data with
  | some r => String.mk r
  | none => line

/-- The prompt f-string built by `get_gemini_variations` (app.py lines 29-38). -/
def mkPrompt (keyword : String) : String :=
  "\n        Generate exactly 5 possible variations of how the following keyword could be used\n        in a conversational query by a user asking a question to an LLM.\n\n        - The variations should be natural-sounding questions or phrases.\n        - Do not add any introduction, conclusion, or extra formatting.\n        - Return only a numbered list of the 5 variations.\n\n        KEYWORD: \"" ++ keyword ++ "\"\n        "

/-- Success-path response processing (app.py lines 43-45): strip the
response text, split it on newlines, keep the non-empty lines, and clean
each surviving line with `cleanLine`. -/
def parseResponse (text : String) : List String :=
  (((splitLinesL (pyStrip text).data).map String.mk).filter
      (fun line => line ≠ "")).map cleanLine

/-- Instrumented side effects of one call to `get_gemini_variations`:
`calls` counts outbound network requests (`model.generate_content`),
`errs` counts `st.error` notifications. -/
structure Effects where
  calls : Nat
  errs : Nat
deriving DecidableEq, Repr

/-- The external text-generation capability: credential and prompt in,
generated text or an exception message out. -/
abbrev ServiceFun := String → String → Except String String

/-- Model of get_gemini_variations from app.py lines 10-51, with the
external call abstracted as the oracle `svc`.  Returns the result list
together with the instrumented side effects. -/
def get_gemini_variations (api_key keyword : String) (svc : ServiceFun) :
    List String × Effects :=
  if keyword = "" then
    (["Error: Keyword cannot be empty."], ⟨0, 0⟩)
  else
    match svc api_key (mkPrompt keyword) with
    | Except.ok text => (parseResponse text, ⟨1, 0⟩)
    | Except.error _ => (["API Error for keyword: '" ++ keyword ++ "'"], ⟨1, 1⟩)

/-- Keyword extraction in the driver (app.py line 90): split the text area
on newlines, keep the lines whose stripped form is non-empty, and strip
each kept line. -/
def parseKeywords (input : String) : List String :=
  ((splitLines input).filter (fun k => pyStrip k ≠ "")).map pyStrip

/-- The per-keyword loop of the driver (app.py lines 95-97): process the
keywords one at a time, in order, pairing each keyword with the result of
its own call to `get_gemini_variations`. -/
def runDriver (api_key : String) (svc : ServiceFun) : List String → List (String × List String)
  | [] => []
  | k :: ks => (k, (get_gemini_variations api_key k svc).1) :: runDriver api_key svc ks

/-- The whole submit handler on a raw keywords text block (app.py lines 90-97). -/
def processAll (api_key input : String) (svc : ServiceFun) : List (String × List String) :=
  runDriver api_key svc (parseKeywords input)

/-- Tests whether the first list starts with the second, used to define
Python substring membership. -/
def leadsWith : List Char → List Char → Bool
  | _, [] => true
  | [], _ :: _ => false
  | a :: s, b :: p => (a = b) && leadsWith s p

/-- Python substring membership `pat in s` on character lists. -/
def occursIn (pat : List Char) : List Char → Bool
  | [] => leadsWith [] pat
  | a :: s => leadsWith (a :: s) pat || occursIn pat s

/-- Python `pat in s` on strings, as used at app.py line 100. -/
def strHasSub (s pat : String) : Bool := occursIn pat.data s.data

/-- Helper for `hasNumMark`: after at least one digit, accepts any further
digits followed by the dot-space separator. -/
def digitsThenMark : List Char → Bool
  | '.' :: ' ' :: _ => true
  | c :: rest => c.isDigit && digitsThenMark rest
  | [] => false

/-- Modelled from the claim wording, for comparison with the code: whether
a line begins with an enumeration marker consisting of one or more digits
followed by the dot-space separator. -/
def hasNumMark : List Char → Bool
  | c :: rest => c.isDigit && digitsThenMark rest
  | [] => false

/-- The mocked 5-line service response of the Healthy-breakfast scenario
(spec section 8, property 5). -/
def mockText : String :=
  "1. What's a good healthy breakfast?\n2. Any quick healthy breakfast ideas?\n3. How can I eat healthy in the morning?\n4. What should I eat for a nutritious breakfast?\n5. Give me some healthy breakfast recipes."

/-! ### Helper lemmas about the embedded string operations -/

theorem mk_ne_empty (l : List Char) (h : l ≠ []) : String.mk l ≠ "" := by
  intro he
  apply h
  have hd := congrArg String.data he
  simpa using hd

theorem splitLinesL_single (a : List Char) (h : ('\n' : Char) ∉ a) :
    splitLinesL a = [a] := by
  induction a with
  | nil => rfl
  | cons c rest ih =>
    have hc : ¬ c = '\n' := by
      rintro rfl
      exact h (List.mem_cons_self _ _)
    have hr : ('\n' : Char) ∉ rest := fun hm => h (List.mem_cons_of_mem _ hm)
    simp only [splitLinesL, if_neg hc, ih hr]

theorem splitLinesL_append (a b : List Char) (h : ('\n' : Char) ∉ a) :
    splitLinesL (a ++ '\n' :: b) = a :: splitLinesL b := by
  induction a with
  | nil => simp [splitLinesL]
  | cons c rest ih =>
    have hc : ¬ c = '\n' := by
      rintro rfl
      exact h (List.mem_cons_self _ _)
    have hr : ('\n' : Char) ∉ rest := fun hm => h (List.mem_cons_of_mem _ hm)
    simp only [List.cons_append, splitLinesL, if_neg hc, List.append_eq, ih hr]

theorem afterFirstSep_digits (ds r : List Char)
    (hd : ∀ c ∈ ds, c.isDigit = true) :
    afterFirstSep (ds ++ '.' :: ' ' :: r) = some r := by
  induction ds with
  | nil =>
    simp [afterFirstSep]
  | cons d ds ih =>
    have hdd : d.isDigit = true := hd d (List.mem_cons_self _ _)
    have hne : d ≠ '.' := by
      rintro rfl
      exact absurd hdd (by decide)
    simp only [List.cons_append, afterFirstSep]
    rw [if_neg]
    · exact ih fun c hc => hd c (List.mem_cons_of_mem _ hc)
    · rintro ⟨h1, _⟩
      exact hne h1

theorem no_nl_line (nd rd : List Char) (hd : ∀ c ∈ nd, c.isDigit = true)
    (hr : ('\n' : Char) ∉ rd) : ('\n' : Char) ∉ nd ++ '.' :: ' ' :: rd := by
  intro hm
  rcases List.mem_append.1 hm with h | h
  · exact absurd (hd _ h) (by decide)
  · simp only [List.mem_cons] at h
    rcases h with h | h | h
    · exact absurd h (by decide)
    · exact absurd h (by decide)
    · exact hr h

theorem line_ne_empty (nd rd : List Char) :
    String.mk (nd ++ '.' :: ' ' :: rd) ≠ "" := by
  apply mk_ne_empty
  cases nd <;> simp

theorem cleanLine_numbered (n r : String) (hd : ∀ c ∈ n.data, c.isDigit = true) :
    cleanLine (String.mk (n.data ++ '.' :: ' ' :: r.data)) = r := by
  unfold cleanLine
  have hdata : (String.mk (n.data ++ '.' :: ' ' :: r.data)).data
      = n.data ++ '.' :: ' ' :: r.data := rfl
  rw [hdata, afterFirstSep_digits _ _ hd]

theorem leadsWith_nil (s : List Char) : leadsWith s [] = true := by
  cases s <;> rfl

theorem leadsWith_append (p rest : List Char) : leadsWith (p ++ rest) p = true := by
  induction p with
  | nil => simpa using leadsWith_nil rest
  | cons a p ih => simp [leadsWith, ih]

theorem occursIn_of_leadsWith (pat s : List Char) (h : leadsWith s pat = true) :
    occursIn pat s = true := by
  cases s with
  | nil =>
    cases pat with
    | nil => rfl
    | cons b p => exact absurd h (by simp [leadsWith])
  | cons a s => simp [occursIn, h]

theorem afterFirstSep_eq_none (l : List Char)
    (h : occursIn ['.', ' '] l = false) : afterFirstSep l = none := by
  induction l with
  | nil => rfl
  | cons c rest ih =>
    simp only [occursIn, Bool.or_eq_false_iff] at h
    obtain ⟨h1, h2⟩ := h
    simp only [afterFirstSep]
    rw [if_neg]
    · exact ih h2
    · rintro ⟨rfl, hh⟩
      cases rest with
      | nil => simp at hh
      | cons r rs =>
        have hr : r = ' ' := by simpa using hh
        subst hr
        simp [leadsWith] at h1

theorem filterMap_comm (l : List String) :
    (l.filter fun k => pyStrip k ≠ "").map pyStrip
      = (l.map pyStrip).filter fun k => k ≠ "" := by
  induction l with
  | nil => rfl
  | cons a l ih =>
    simp only [ne_eq, decide_not] at ih
    simp only [List.map_cons, List.filter_cons, ne_eq, decide_not]
    by_cases h : pyStrip a = ""
    · simp [h, ih]
    · simp [h, ih]

theorem strHasSub_append (p t : String) : strHasSub (p ++ t) p = true := by
  show occursIn p.data (p ++ t).data = true
  rw [String.data_append]
  exact occursIn_of_leadsWith _ _ (leadsWith_append _ _)

/-! ### Claim theorems -/

/-- C3: for the empty-string keyword input, get_gemini_variations returns
exactly the single-element list with the fixed empty-keyword sentinel and
performs no network call (zero outbound requests in the effect record). -/
theorem c3_empty_keyword (api : String) (svc : ServiceFun) :
    get_gemini_variations api "" svc
      = (["Error: Keyword cannot be empty."], ⟨0, 0⟩) := rfl

/-- C2: for every non-empty keyword, if the external call fails, the
function returns exactly the single-element API-error sentinel naming the
original keyword, and the driver loop still processes all remaining
keywords: the failing keyword contributes one result and the rest of the
loop is unchanged. -/
theorem c2_service_failure (api k e : String) (svc : ServiceFun) (ks : List String)
    (hk : k ≠ "") (hsvc : svc api (mkPrompt k) = Except.error e) :
    (get_gemini_variations api k svc).1 = ["API Error for keyword: '" ++ k ++ "'"]
    ∧ runDriver api svc (k :: ks)
        = (k, ["API Error for keyword: '" ++ k ++ "'"]) :: runDriver api svc ks := by
  have h : (get_gemini_variations api k svc).1
      = ["API Error for keyword: '" ++ k ++ "'"] := by
    simp [get_gemini_variations, if_neg hk, hsvc]
  exact ⟨h, by simp [runDriver, h]⟩

/-- Witness for C2 at the failing-scenario keyword of spec section 8. -/
theorem c2_service_failure_witness :
    (get_gemini_variations "key" "Beginner's guide to Python"
        (fun _ _ => Except.error "boom")).1
      = ["API Error for keyword: 'Beginner's guide to Python'"]
    ∧ runDriver "key" (fun _ _ => Except.error "boom") ["Beginner's guide to Python"]
      = [("Beginner's guide to Python",
          ["API Error for keyword: 'Beginner's guide to Python'"])] := by
  have h := c2_service_failure "key" "Beginner's guide to Python" "boom"
      (fun _ _ => Except.error "boom") [] (by decide) rfl
  exact ⟨h.1, h.2⟩

/-- C4 (code bug): contrary to the non-emptiness guarantee, when the
service succeeds with empty (or whitespace-only) text, the function
returns the empty list; the driver would then fault at variations[0]. -/
theorem c4_blank_success_empty :
    (get_gemini_variations "key" "Healthy breakfast ideas"
        (fun _ _ => Except.ok "")).1 = ([] : List String) := by decide

/-- C5 counterexample: a successful two-line response yields a two-element
result, which is neither a five-element list nor a single-element sentinel,
refuting the claimed shape dichotomy. -/
theorem c5_counterexample :
    (get_gemini_variations "key" "kw" (fun _ _ => Except.ok "A\nB")).1 = ["A", "B"]
    ∧ ¬((get_gemini_variations "key" "kw" (fun _ _ => Except.ok "A\nB")).1.length = 5
        ∨ (get_gemini_variations "key" "kw" (fun _ _ => Except.ok "A\nB")).1.length = 1) := by
  decide

/-- C5 (amended): every result is either the cleaned non-empty lines of a
successful response (with no guarantee on their number) or one of the two
single-element sentinels. -/
theorem c5_amended_shape (api k : String) (svc : ServiceFun) :
    (∃ text, svc api (mkPrompt k) = Except.ok text
        ∧ (get_gemini_variations api k svc).1 = parseResponse text)
    ∨ (get_gemini_variations api k svc).1 = ["Error: Keyword cannot be empty."]
    ∨ (get_gemini_variations api k svc).1 = ["API Error for keyword: '" ++ k ++ "'"] := by
  by_cases hk : k = ""
  · subst hk
    right; left; rfl
  · cases hsvc : svc api (mkPrompt k) with
    | ok t =>
      left
      exact ⟨t, rfl, by simp [get_gemini_variations, if_neg hk, hsvc]⟩
    | error e =>
      right; right
      simp [get_gemini_variations, if_neg hk, hsvc]

/-- C6 counterexample: a successful call (non-empty keyword, service
returns text) whose first element nevertheless contains the literal
marker, so the substring check does not characterize error outcomes. -/
theorem c6_counterexample :
    ("x" : String) ≠ ""
    ∧ (fun _ _ => Except.ok "Error: test" : ServiceFun) "key" (mkPrompt "x")
        = Except.ok "Error: test"
    ∧ (get_gemini_variations "key" "x" (fun _ _ => Except.ok "Error: test")).1
        = ["Error: test"]
    ∧ (get_gemini_variations "key" "x" (fun _ _ => Except.ok "Error: test")).1
        ≠ ["Error: Keyword cannot be empty."]
    ∧ (get_gemini_variations "key" "x" (fun _ _ => Except.ok "Error: test")).1
        ≠ ["API Error for keyword: '" ++ "x" ++ "'"]
    ∧ strHasSub
        ((get_gemini_variations "key" "x" (fun _ _ => Except.ok "Error: test")).1.headD "")
        "Error:" = true := by
  refine ⟨by decide, rfl, by decide, by decide, by decide, by decide⟩

/-- C6 (amended): in every error outcome (empty keyword or service
failure), the first element of the result contains the literal marker
checked by the driver: the API-error substring or the error-colon
substring. -/
theorem c6_amended_marker (api k : String) (svc : ServiceFun)
    (h : k = "" ∨ ∃ e, svc api (mkPrompt k) = Except.error e) :
    strHasSub ((get_gemini_variations api k svc).1.headD "") "API Error" = true
    ∨ strHasSub ((get_gemini_variations api k svc).1.headD "") "Error:" = true := by
  by_cases hk : k = ""
  · subst hk
    right
    have h0 : (get_gemini_variations api "" svc).1
        = ["Error: Keyword cannot be empty."] := rfl
    rw [h0]
    decide
  · rcases h with h0 | ⟨e, he⟩
    · exact absurd h0 hk
    · left
      have h1 : (get_gemini_variations api k svc).1
          = ["API Error for keyword: '" ++ k ++ "'"] := by
        simp [get_gemini_variations, if_neg hk, he]
      rw [h1]
      simp only [List.headD_cons]
      have he2 : ("API Error for keyword: '" ++ k ++ "'")
          = "API Error" ++ (" for keyword: '" ++ (k ++ "'")) := by
        apply String.ext
        simp [String.data_append, List.append_assoc]
      rw [he2]
      exact strHasSub_append _ _

/-- Witness for C6 (amended) at the empty-keyword error outcome. -/
theorem c6_amended_marker_witness :
    strHasSub ((get_gemini_variations "key" "" (fun _ _ => Except.ok "t")).1.headD "")
        "API Error" = true
    ∨ strHasSub ((get_gemini_variations "key" "" (fun _ _ => Except.ok "t")).1.headD "")
        "Error:" = true :=
  c6_amended_marker "key" "" (fun _ _ => Except.ok "t") (Or.inl rfl)

/-- C8: exactly one outbound network request when the keyword is non-empty
(whatever the outcome), zero when it is empty, and exactly one
error-channel notification exactly in the failure case. -/
theorem c8_effects (api k : String) (svc : ServiceFun) :
    (k = "" → (get_gemini_variations api k svc).2 = ⟨0, 0⟩)
    ∧ (∀ t, k ≠ "" → svc api (mkPrompt k) = Except.ok t →
        (get_gemini_variations api k svc).2 = ⟨1, 0⟩)
    ∧ (∀ e, k ≠ "" → svc api (mkPrompt k) = Except.error e →
        (get_gemini_variations api k svc).2 = ⟨1, 1⟩) := by
  refine ⟨?_, ?_, ?_⟩
  · rintro rfl
    rfl
  · intro t hk hsvc
    simp [get_gemini_variations, if_neg hk, hsvc]
  · intro e hk hsvc
    simp [get_gemini_variations, if_neg hk, hsvc]

/-- Witness for C8 in all three cases: empty keyword, success, failure. -/
theorem c8_effects_witness :
    (get_gemini_variations "key" "" (fun _ _ => Except.ok "t")).2 = ⟨0, 0⟩
    ∧ (get_gemini_variations "key" "kw" (fun _ _ => Except.ok "t")).2 = ⟨1, 0⟩
    ∧ (get_gemini_variations "key" "kw" (fun _ _ => Except.error "boom")).2 = ⟨1, 1⟩ :=
  ⟨(c8_effects "key" "" (fun _ _ => Except.ok "t")).1 rfl,
   (c8_effects "key" "kw" (fun _ _ => Except.ok "t")).2.1 "t" (by decide) rfl,
   (c8_effects "key" "kw" (fun _ _ => Except.error "boom")).2.2 "boom" (by decide) rfl⟩

/-- C9 counterexample: a line with no leading digit enumeration marker is
still changed by the cleaning step, because the code strips up to the
first dot-space occurrence anywhere in the line. -/
theorem c9_counterexample :
    hasNumMark ("Hello. World" : String).data = false
    ∧ cleanLine "Hello. World" = "World"
    ∧ cleanLine "Hello. World" ≠ "Hello. World" := by decide

/-- C9 (amended): a response line containing no occurrence of the
dot-space separator passes through the cleaning step unchanged. -/
theorem c9_amended_no_sep (line : String)
    (h : occursIn ['.', ' '] line.data = false) : cleanLine line = line := by
  unfold cleanLine
  rw [afterFirstSep_eq_none _ h]

/-- Witness for C9 (amended) on a concrete separator-free line. -/
theorem c9_amended_no_sep_witness :
    occursIn ['.', ' '] ("plain text line" : String).data = false
    ∧ cleanLine "plain text line" = "plain text line" :=
  ⟨by decide, c9_amended_no_sep "plain text line" (by decide)⟩

/-- C10: credential noninterference: with a non-empty keyword and the same
service outcome, two calls differing only in the credential return the
same result (and the same effects). -/
theorem c10_credential_noninterference (key1 key2 kw : String) (svc : ServiceFun)
    (hkw : kw ≠ "")
    (hout : svc key1 (mkPrompt kw) = svc key2 (mkPrompt kw)) :
    get_gemini_variations key1 kw svc = get_gemini_variations key2 kw svc := by
  unfold get_gemini_variations
  rw [if_neg hkw, if_neg hkw, hout]

/-- Witness for C10 with two distinct credentials and a fixed outcome. -/
theorem c10_credential_noninterference_witness :
    get_gemini_variations "key-one" "x" (fun _ _ => Except.ok "1. a")
      = get_gemini_variations "key-two" "x" (fun _ _ => Except.ok "1. a") :=
  c10_credential_noninterference "key-one" "key-two" "x"
    (fun _ _ => Except.ok "1. a") (by decide) rfl

/-- C7: the driver derives the keyword list by splitting the text block on
newlines, trimming each line and discarding blanks, and then invokes the
core once per surviving keyword, sequentially and in input order. -/
theorem c7_driver_keywords (api input : String) (svc : ServiceFun) :
    parseKeywords input = ((splitLines input).map pyStrip).filter (fun k => k ≠ "")
    ∧ processAll api input svc
        = (parseKeywords input).map fun k => (k, (get_gemini_variations api k svc).1) := by
  constructor
  · exact filterMap_comm _
  · show runDriver api svc (parseKeywords input) = _
    generalize parseKeywords input = ks
    induction ks with
    | nil => rfl
    | cons k ks ih => simp [runDriver, ih]

/-- C1: for every non-empty keyword, when the external call succeeds and
the returned text is a 5-line numbered response (each line one or more
digits, then the dot-space separator, then newline-free remainder text,
with no surrounding whitespace), the result is the 5-element list of the
remainders, i.e. each response line with its leading digit enumeration
marker removed (only that first occurrence stripped), in line order. -/
theorem c1_numbered_success
    (api k text : String) (svc : ServiceFun)
    (n1 n2 n3 n4 n5 r1 r2 r3 r4 r5 : String)
    (hk : k ≠ "")
    (hn : ∀ n ∈ [n1, n2, n3, n4, n5], n.data ≠ [] ∧ ∀ c ∈ n.data, c.isDigit = true)
    (hr : ∀ r ∈ [r1, r2, r3, r4, r5], ('\n' : Char) ∉ r.data)
    (htext : text = n1 ++ ". " ++ r1 ++ "\n" ++ n2 ++ ". " ++ r2 ++ "\n" ++ n3 ++ ". " ++ r3
        ++ "\n" ++ n4 ++ ". " ++ r4 ++ "\n" ++ n5 ++ ". " ++ r5)
    (hstrip : pyStrip text = text)
    (hsvc : svc api (mkPrompt k) = Except.ok text) :
    (get_gemini_variations api k svc).1 = [r1, r2, r3, r4, r5] := by
  have hd1 := (hn n1 (by simp)).2
  have hd2 := (hn n2 (by simp)).2
  have hd3 := (hn n3 (by simp)).2
  have hd4 := (hn n4 (by simp)).2
  have hd5 := (hn n5 (by simp)).2
  have hr1 := hr r1 (by simp)
  have hr2 := hr r2 (by simp)
  have hr3 := hr r3 (by simp)
  have hr4 := hr r4 (by simp)
  have hr5 := hr r5 (by simp)
  have hnl1 : ('\n' : Char) ∉ n1.data ++ '.' :: ' ' :: r1.data := no_nl_line _ _ hd1 hr1
  have hnl2 : ('\n' : Char) ∉ n2.data ++ '.' :: ' ' :: r2.data := no_nl_line _ _ hd2 hr2
  have hnl3 : ('\n' : Char) ∉ n3.data ++ '.' :: ' ' :: r3.data := no_nl_line _ _ hd3 hr3
  have hnl4 : ('\n' : Char) ∉ n4.data ++ '.' :: ' ' :: r4.data := no_nl_line _ _ hd4 hr4
  have hnl5 : ('\n' : Char) ∉ n5.data ++ '.' :: ' ' :: r5.data := no_nl_line _ _ hd5 hr5
  have hres : (get_gemini_variations api k svc).1 = parseResponse text := by
    simp [get_gemini_variations, if_neg hk, hsvc]
  have hdata : text.data
      = (n1.data ++ '.' :: ' ' :: r1.data) ++ '\n' ::
        ((n2.data ++ '.' :: ' ' :: r2.data) ++ '\n' ::
          ((n3.data ++ '.' :: ' ' :: r3.data) ++ '\n' ::
            ((n4.data ++ '.' :: ' ' :: r4.data) ++ '\n' ::
              (n5.data ++ '.' :: ' ' :: r5.data)))) := by
    rw [htext]
    simp [String.data_append, List.append_assoc]
  rw [hres]
  unfold parseResponse
  rw [hstrip, hdata, splitLinesL_append _ _ hnl1, splitLinesL_append _ _ hnl2,
    splitLinesL_append _ _ hnl3, splitLinesL_append _ _ hnl4, splitLinesL_single _ hnl5]
  simp [List.filter_cons, line_ne_empty]
  exact ⟨cleanLine_numbered n1 r1 hd1, cleanLine_numbered n2 r2 hd2,
    cleanLine_numbered n3 r3 hd3, cleanLine_numbered n4 r4 hd4,
    cleanLine_numbered n5 r5 hd5⟩

/-- Witness for C1: the mocked Healthy-breakfast scenario of spec section
8, property 5, yielding exactly the five listed cleaned strings. -/
theorem c1_numbered_success_witness :
    (get_gemini_variations "key" "Healthy breakfast ideas"
        (fun _ _ => Except.ok mockText)).1
      = ["What's a good healthy breakfast?", "Any quick healthy breakfast ideas?",
         "How can I eat healthy in the morning?",
         "What should I eat for a nutritious breakfast?",
         "Give me some healthy breakfast recipes."] :=
  c1_numbered_success "key" "Healthy breakfast ideas" mockText
    (fun _ _ => Except.ok mockText) "1" "2" "3" "4" "5"
    "What's a good healthy breakfast?" "Any quick healthy breakfast ideas?"
    "How can I eat healthy in the morning?" "What should I eat for a nutritious breakfast?"
    "Give me some healthy breakfast recipes."
    (by decide) (by decide) (by decide) (by decide) (by decide) rfl
